import Mathlib

/-!
Verification development for the handle-level control layer of the WCDB
repository (`src/objc/source/core/handle/AbstractHandle.hpp`).

The repository snapshot ships only the class declaration
`AbstractHandle.hpp`; the member-function bodies are not under `src/`.
Signatures (return types, parameter lists, field types such as
`int m_nestedLevel`, `std::vector<int> m_ignorableCodes`) are embedded
from the header; behaviour of the member functions is modelled from the
specification, as marked on each definition.
-/

namespace WCDB

/-- SQL commands a handle issues to the underlying engine, abstracted to
the constructors the transaction manager uses. -/
inductive SQL where
  | begin : SQL
  | commit : SQL
  | rollback : SQL
  | savepoint (name : String) : SQL
  | release (name : String) : SQL
  | rollbackTo (name : String) : SQL
deriving Repr, DecidableEq

/-- Modelled from the spec: the body of `AbstractHandle::savepointPrefix`
is missing from `src/`; the spec says savepoint names come from a fixed
prefix. -/
def savepointPrefix : String := "WCDBSavepoint_"

/-- Modelled from the spec: savepoint names are the fixed prefix
concatenated with the current nesting level. -/
def savepointName (level : Int) : String := savepointPrefix ++ toString level

/-- The transaction-related state of an `AbstractHandle`:
`m_nestedLevel : int` from the header, plus the `ErrorProne` error flag
(set when a statement fails). -/
structure TxHandle where
  nestedLevel : Int
  hasError : Bool
deriving Repr, DecidableEq

/-- Modelled from the spec: the body of `AbstractHandle::beginTransaction`
is missing from `src/`. Issues `BEGIN`; on success the level increments
(the flat case is the level-0 to level-1 transition); on failure the
level is unchanged and the error state is set. The `ok` parameter is the
outcome of the underlying `executeStatement` call. -/
def beginTransaction (ok : Bool) (h : TxHandle) : Bool × List SQL × TxHandle :=
  if ok then (true, [SQL.begin], { h with nestedLevel := h.nestedLevel + 1 })
  else (false, [SQL.begin], { h with hasError := true })

/-- Modelled from the spec: the body of
`AbstractHandle::commitOrRollbackTransaction` is missing from `src/`.
Issues `COMMIT`; on success the level returns to 0; on failure the level
is unchanged. -/
def commitOrRollbackTransaction (ok : Bool) (h : TxHandle) : Bool × List SQL × TxHandle :=
  if ok then (true, [SQL.commit], { h with nestedLevel := 0 })
  else (false, [SQL.commit], { h with hasError := true })

/-- Modelled from the spec: the body of
`AbstractHandle::rollbackTransaction` is missing from `src/`. The header
declares it `void`: it returns no success value; a failure is recorded
only in the handle's error state. -/
def rollbackTransaction (ok : Bool) (h : TxHandle) : Unit × List SQL × TxHandle :=
  if ok then ((), [SQL.rollback], { h with nestedLevel := 0 })
  else ((), [SQL.rollback], { h with hasError := true })

/-- Modelled from the spec: the body of
`AbstractHandle::beginNestedTransaction` is missing from `src/`. At
level 0 it is exactly the flat begin; at level >= 1 it issues
`SAVEPOINT` named with the fixed prefix and the current level, and
increments the level on success. -/
def beginNestedTransaction (ok : Bool) (h : TxHandle) : Bool × List SQL × TxHandle :=
  if h.nestedLevel = 0 then beginTransaction ok h
  else
    if ok then
      (true, [SQL.savepoint (savepointName h.nestedLevel)],
        { h with nestedLevel := h.nestedLevel + 1 })
    else (false, [SQL.savepoint (savepointName h.nestedLevel)], { h with hasError := true })

/-- Modelled from the spec: the body of
`AbstractHandle::commitOrRollbackNestedTransaction` is missing from
`src/`. At level >= 2 it issues `RELEASE SAVEPOINT` for the innermost
savepoint and decrements the level on success; at level <= 1 it degrades
to the flat commit. -/
def commitOrRollbackNestedTransaction (ok : Bool) (h : TxHandle) : Bool × List SQL × TxHandle :=
  if h.nestedLevel ≥ 2 then
    if ok then
      (true, [SQL.release (savepointName (h.nestedLevel - 1))],
        { h with nestedLevel := h.nestedLevel - 1 })
    else (false, [SQL.release (savepointName (h.nestedLevel - 1))], { h with hasError := true })
  else commitOrRollbackTransaction ok h

/-- Modelled from the spec: the body of
`AbstractHandle::rollbackNestedTransaction` is missing from `src/`. The
header declares it `void`. At level >= 2 it issues `ROLLBACK TO
SAVEPOINT` followed by `RELEASE SAVEPOINT` and decrements the level on
success; at level <= 1 it degrades to the flat rollback. -/
def rollbackNestedTransaction (ok : Bool) (h : TxHandle) : Unit × List SQL × TxHandle :=
  if h.nestedLevel ≥ 2 then
    if ok then
      ((), [SQL.rollbackTo (savepointName (h.nestedLevel - 1)),
            SQL.release (savepointName (h.nestedLevel - 1))],
        { h with nestedLevel := h.nestedLevel - 1 })
    else
      ((), [SQL.rollbackTo (savepointName (h.nestedLevel - 1)),
            SQL.release (savepointName (h.nestedLevel - 1))],
        { h with hasError := true })
  else rollbackTransaction ok h

/-- One transaction operation of a trace, tagged with the outcome of its
underlying engine statement. -/
inductive TxOp where
  | flatBegin (ok : Bool)
  | flatCommit (ok : Bool)
  | flatRollback (ok : Bool)
  | nestedBegin (ok : Bool)
  | nestedCommit (ok : Bool)
  | nestedRollback (ok : Bool)
deriving Repr, DecidableEq

/-- The state transition of one transaction operation. -/
def txStep (op : TxOp) (h : TxHandle) : TxHandle :=
  match op with
  | .flatBegin ok => (beginTransaction ok h).2.2
  | .flatCommit ok => (commitOrRollbackTransaction ok h).2.2
  | .flatRollback ok => (rollbackTransaction ok h).2.2
  | .nestedBegin ok => (beginNestedTransaction ok h).2.2
  | .nestedCommit ok => (commitOrRollbackNestedTransaction ok h).2.2
  | .nestedRollback ok => (rollbackNestedTransaction ok h).2.2

/-- Run a trace of transaction operations. -/
def runTx (ops : List TxOp) (h : TxHandle) : TxHandle :=
  ops.foldl (fun s op => txStep op s) h

/-- A freshly constructed handle: no transaction, no error. -/
def initialTxHandle : TxHandle := ⟨0, false⟩

/-- Whether a transaction operation is a begin. -/
def TxOp.isBegin : TxOp → Bool
  | .flatBegin _ => true
  | .nestedBegin _ => true
  | _ => false

/-- Whether a transaction operation is a commit or a rollback. -/
def TxOp.isCommitOrRollback : TxOp → Bool
  | .flatCommit _ => true
  | .flatRollback _ => true
  | .nestedCommit _ => true
  | .nestedRollback _ => true
  | _ => false

/-- The engine outcome of the operation's underlying statement. -/
def TxOp.ok : TxOp → Bool
  | .flatBegin b => b
  | .flatCommit b => b
  | .flatRollback b => b
  | .nestedBegin b => b
  | .nestedCommit b => b
  | .nestedRollback b => b

theorem txStep_level (op : TxOp) (h : TxHandle) :
    (txStep op h).nestedLevel =
      if op.ok = true then
        (match op with
         | .flatBegin _ => h.nestedLevel + 1
         | .nestedBegin _ => h.nestedLevel + 1
         | .flatCommit _ => 0
         | .flatRollback _ => 0
         | .nestedCommit _ => if 2 ≤ h.nestedLevel then h.nestedLevel - 1 else 0
         | .nestedRollback _ => if 2 ≤ h.nestedLevel then h.nestedLevel - 1 else 0)
      else h.nestedLevel := by
  rcases op with ⟨ok⟩ | ⟨ok⟩ | ⟨ok⟩ | ⟨ok⟩ | ⟨ok⟩ | ⟨ok⟩ <;> rcases ok <;>
    simp [txStep, TxOp.ok, beginTransaction, commitOrRollbackTransaction, rollbackTransaction,
      beginNestedTransaction, commitOrRollbackNestedTransaction, rollbackNestedTransaction] <;>
    split_ifs <;> simp_all

theorem txStep_nonneg (op : TxOp) (h : TxHandle) (h0 : 0 ≤ h.nestedLevel) :
    0 ≤ (txStep op h).nestedLevel := by
  rw [txStep_level]
  rcases op with ⟨ok⟩ | ⟨ok⟩ | ⟨ok⟩ | ⟨ok⟩ | ⟨ok⟩ | ⟨ok⟩ <;> rcases ok <;>
    simp [TxOp.ok] <;> omega

theorem txStep_fail (op : TxOp) (h : TxHandle) (hf : op.ok = false) :
    (txStep op h).nestedLevel = h.nestedLevel := by
  rw [txStep_level, hf]
  simp

theorem txStep_incr (op : TxOp) (h : TxHandle) (h0 : 0 ≤ h.nestedLevel)
    (hlt : h.nestedLevel < (txStep op h).nestedLevel) : op.ok = true ∧ op.isBegin = true := by
  rw [txStep_level] at hlt
  rcases op with ⟨ok⟩ | ⟨ok⟩ | ⟨ok⟩ | ⟨ok⟩ | ⟨ok⟩ | ⟨ok⟩ <;> rcases ok <;>
    simp [TxOp.ok, TxOp.isBegin] at hlt ⊢ <;> omega

theorem txStep_decr (op : TxOp) (h : TxHandle) (h0 : 0 ≤ h.nestedLevel)
    (hlt : (txStep op h).nestedLevel < h.nestedLevel) :
    op.ok = true ∧ op.isCommitOrRollback = true := by
  rw [txStep_level] at hlt
  rcases op with ⟨ok⟩ | ⟨ok⟩ | ⟨ok⟩ | ⟨ok⟩ | ⟨ok⟩ | ⟨ok⟩ <;> rcases ok <;>
    simp [TxOp.ok, TxOp.isCommitOrRollback] at hlt ⊢

theorem runTx_nonneg_general (ops : List TxOp) (h : TxHandle) (h0 : 0 ≤ h.nestedLevel) :
    0 ≤ (runTx ops h).nestedLevel := by
  induction ops generalizing h with
  | nil => exact h0
  | cons op ops ih => exact ih (txStep op h) (txStep_nonneg op h h0)

/-- C1: at level 0, `beginNestedTransaction` is exactly the flat
`beginTransaction` and the level becomes 1 on success; at level >= 1 it
issues `SAVEPOINT` named by the fixed prefix concatenated with the
current level and increments the level; nested commit at level >= 2
issues `RELEASE SAVEPOINT`; nested rollback at level >= 2 issues
`ROLLBACK TO SAVEPOINT` then `RELEASE SAVEPOINT`; at level 1 both
degrade to the flat commit/rollback and the level returns to 0. -/
theorem beginNested_savepoint_semantics (ok : Bool) (h : TxHandle) :
    (h.nestedLevel = 0 →
      beginNestedTransaction ok h = beginTransaction ok h ∧
      (ok = true → (beginNestedTransaction ok h).2.2.nestedLevel = 1)) ∧
    (1 ≤ h.nestedLevel →
      (beginNestedTransaction ok h).2.1 = [SQL.savepoint (savepointName h.nestedLevel)] ∧
      (ok = true → (beginNestedTransaction ok h).2.2.nestedLevel = h.nestedLevel + 1)) ∧
    (2 ≤ h.nestedLevel →
      (commitOrRollbackNestedTransaction ok h).2.1
        = [SQL.release (savepointName (h.nestedLevel - 1))] ∧
      (rollbackNestedTransaction ok h).2.1
        = [SQL.rollbackTo (savepointName (h.nestedLevel - 1)),
           SQL.release (savepointName (h.nestedLevel - 1))]) ∧
    (h.nestedLevel = 1 →
      commitOrRollbackNestedTransaction ok h = commitOrRollbackTransaction ok h ∧
      rollbackNestedTransaction ok h = rollbackTransaction ok h ∧
      (ok = true →
        (commitOrRollbackNestedTransaction ok h).2.2.nestedLevel = 0 ∧
        (rollbackNestedTransaction ok h).2.2.nestedLevel = 0)) := by
  refine ⟨fun h0 => ?_, fun h1 => ?_, fun h2 => ?_, fun h1 => ?_⟩
  · constructor
    · simp [beginNestedTransaction, h0]
    · intro hok
      rcases ok <;> simp_all [beginNestedTransaction, beginTransaction, h0]
  · have hne : ¬ h.nestedLevel = 0 := by omega
    rcases ok <;> simp [beginNestedTransaction, hne]
  · have hge : h.nestedLevel ≥ 2 := h2
    rcases ok <;> simp [commitOrRollbackNestedTransaction, rollbackNestedTransaction, hge]
  · have hlt : ¬ h.nestedLevel ≥ 2 := by omega
    refine ⟨by simp [commitOrRollbackNestedTransaction, hlt],
      by simp [rollbackNestedTransaction, hlt], fun hok => ?_⟩
    rcases ok <;>
      simp_all [commitOrRollbackNestedTransaction, rollbackNestedTransaction,
        commitOrRollbackTransaction, rollbackTransaction, hlt]

theorem beginNested_savepoint_semantics_witness :
    ((2 : Int) = 0 →
      beginNestedTransaction true ⟨2, false⟩ = beginTransaction true ⟨2, false⟩ ∧
      (true = true → (beginNestedTransaction true ⟨2, false⟩).2.2.nestedLevel = 1)) ∧
    (1 ≤ (2 : Int) →
      (beginNestedTransaction true ⟨2, false⟩).2.1 = [SQL.savepoint (savepointName 2)] ∧
      (true = true → (beginNestedTransaction true ⟨2, false⟩).2.2.nestedLevel = 2 + 1)) ∧
    (2 ≤ (2 : Int) →
      (commitOrRollbackNestedTransaction true ⟨2, false⟩).2.1
        = [SQL.release (savepointName (2 - 1))] ∧
      (rollbackNestedTransaction true ⟨2, false⟩).2.1
        = [SQL.rollbackTo (savepointName (2 - 1)), SQL.release (savepointName (2 - 1))]) ∧
    ((2 : Int) = 1 →
      commitOrRollbackNestedTransaction true ⟨2, false⟩ = commitOrRollbackTransaction true ⟨2, false⟩ ∧
      rollbackNestedTransaction true ⟨2, false⟩ = rollbackTransaction true ⟨2, false⟩ ∧
      (true = true →
        (commitOrRollbackNestedTransaction true ⟨2, false⟩).2.2.nestedLevel = 0 ∧
        (rollbackNestedTransaction true ⟨2, false⟩).2.2.nestedLevel = 0)) :=
  beginNested_savepoint_semantics true ⟨2, false⟩

/-- C2: the nesting level is never negative, is left exactly unchanged
when the underlying statement fails, increases only through a successful
begin, decreases only through a successful commit or rollback, and stays
nonnegative along every trace from a fresh handle. -/
theorem nestedLevel_discipline (op : TxOp) (h : TxHandle) (ops : List TxOp)
    (h0 : 0 ≤ h.nestedLevel) :
    0 ≤ (txStep op h).nestedLevel ∧
    (op.ok = false → (txStep op h).nestedLevel = h.nestedLevel) ∧
    (h.nestedLevel < (txStep op h).nestedLevel → op.ok = true ∧ op.isBegin = true) ∧
    ((txStep op h).nestedLevel < h.nestedLevel → op.ok = true ∧ op.isCommitOrRollback = true) ∧
    0 ≤ (runTx ops initialTxHandle).nestedLevel :=
  ⟨txStep_nonneg op h h0, txStep_fail op h, txStep_incr op h h0, txStep_decr op h h0,
    runTx_nonneg_general ops initialTxHandle (by simp [initialTxHandle])⟩

theorem nestedLevel_discipline_witness :
    0 ≤ (txStep (TxOp.nestedRollback false) ⟨2, false⟩).nestedLevel ∧
    ((TxOp.nestedRollback false).ok = false →
      (txStep (TxOp.nestedRollback false) ⟨2, false⟩).nestedLevel = (2 : Int)) ∧
    ((2 : Int) < (txStep (TxOp.nestedRollback false) ⟨2, false⟩).nestedLevel →
      (TxOp.nestedRollback false).ok = true ∧ (TxOp.nestedRollback false).isBegin = true) ∧
    ((txStep (TxOp.nestedRollback false) ⟨2, false⟩).nestedLevel < (2 : Int) →
      (TxOp.nestedRollback false).ok = true ∧ (TxOp.nestedRollback false).isCommitOrRollback = true) ∧
    0 ≤ (runTx [TxOp.flatBegin true, TxOp.nestedBegin true, TxOp.nestedCommit true]
          initialTxHandle).nestedLevel :=
  nestedLevel_discipline (TxOp.nestedRollback false) ⟨2, false⟩
    [TxOp.flatBegin true, TxOp.nestedBegin true, TxOp.nestedCommit true] (by decide)

/-- C10: the rollback operations return no success value (their returned
value is the same whatever the engine outcome, failure being visible
only through the handle's error state), while the begin and commit
operations return the engine outcome as a boolean. -/
theorem rollback_returns_void (ok : Bool) (h : TxHandle) :
    (rollbackTransaction ok h).1 = (rollbackTransaction true h).1 ∧
    (rollbackNestedTransaction ok h).1 = (rollbackNestedTransaction true h).1 ∧
    (rollbackTransaction false h).2.2.hasError = true ∧
    (rollbackNestedTransaction false h).2.2.hasError = true ∧
    (beginTransaction ok h).1 = ok ∧
    (commitOrRollbackTransaction ok h).1 = ok ∧
    (beginNestedTransaction ok h).1 = ok ∧
    (commitOrRollbackNestedTransaction ok h).1 = ok := by
  refine ⟨rfl, rfl, ?_, ?_, ?_, ?_, ?_, ?_⟩ <;>
    rcases ok <;>
    simp [rollbackTransaction, rollbackNestedTransaction, beginTransaction,
      commitOrRollbackTransaction, beginNestedTransaction,
      commitOrRollbackNestedTransaction] <;>
    split_ifs <;> simp

/-- The error-policy state of an `AbstractHandle`: the ignorable-code
stack `m_ignorableCodes` (top first) declared in the header, together
with the sequence of error reports surfaced to observers/logging. -/
structure ErrorCtx where
  ignorableCodes : List Int
  reports : List Int
deriving Repr, DecidableEq

/-- Modelled from the spec: the body of
`AbstractHandle::markErrorAsIgnorable` is missing from `src/`; the
header says to call it as push in a stack structure. -/
def markErrorAsIgnorable (ignorableCode : Int) (e : ErrorCtx) : ErrorCtx :=
  { e with ignorableCodes := ignorableCode :: e.ignorableCodes }

/-- Modelled from the spec: the body of
`AbstractHandle::markErrorAsUnignorable` is missing from `src/`; the
header says to call it as pop in a stack structure. -/
def markErrorAsUnignorable (e : ErrorCtx) : ErrorCtx :=
  { e with ignorableCodes := e.ignorableCodes.tail }

/-- Modelled from the spec: the body of `AbstractHandle::isError` is
missing from `src/`; an engine return code is an error when it is not
the success code 0. -/
def isError (rc : Int) : Bool := rc ≠ 0

/-- Modelled from the spec: the body of `AbstractHandle::exitAPI` is
missing from `src/`. Every engine call funnels through this gate: on
success it returns true; on a failure whose code matches the top of the
ignorable-code stack it returns false without reporting; on any other
failure it returns false and surfaces an error report. The header notes
that the level of an ignorable error is "Ignore" but the return value is
still false. -/
def exitAPI (rc : Int) (e : ErrorCtx) : Bool × ErrorCtx :=
  if isError rc then
    if e.ignorableCodes.head? = some rc then (false, e)
    else (false, { e with reports := e.reports ++ [rc] })
  else (true, e)

/-- C3: after `markErrorAsIgnorable X`, an engine failure with code `X`
still returns a failing value to the immediate caller while producing
zero observer-visible reports; after the matching
`markErrorAsUnignorable`, a subsequent unrelated failure `Y` is fully
reported again. -/
theorem markErrorAsIgnorable_suppresses (X Y : Int) (e : ErrorCtx)
    (hX : isError X = true) (hY : isError Y = true)
    (hfresh : e.ignorableCodes.head? ≠ some Y) :
    (exitAPI X (markErrorAsIgnorable X e)).1 = false ∧
    (exitAPI X (markErrorAsIgnorable X e)).2.reports = e.reports ∧
    markErrorAsUnignorable (markErrorAsIgnorable X e) = e ∧
    (exitAPI Y (markErrorAsUnignorable (markErrorAsIgnorable X e))).1 = false ∧
    (exitAPI Y (markErrorAsUnignorable (markErrorAsIgnorable X e))).2.reports
      = e.reports ++ [Y] := by
  have hpop : markErrorAsUnignorable (markErrorAsIgnorable X e) = e := by
    simp [markErrorAsUnignorable, markErrorAsIgnorable]
  refine ⟨?_, ?_, hpop, ?_, ?_⟩
  · simp [exitAPI, markErrorAsIgnorable, hX]
  · simp [exitAPI, markErrorAsIgnorable, hX]
  · rw [hpop]; simp [exitAPI, hY, hfresh]
  · rw [hpop]; simp [exitAPI, hY, hfresh]

theorem markErrorAsIgnorable_suppresses_witness :
    (exitAPI 19 (markErrorAsIgnorable 19 ⟨[], []⟩)).1 = false ∧
    (exitAPI 19 (markErrorAsIgnorable 19 ⟨[], []⟩)).2.reports = ([] : List Int) ∧
    markErrorAsUnignorable (markErrorAsIgnorable 19 ⟨[], []⟩) = ⟨[], []⟩ ∧
    (exitAPI 11 (markErrorAsUnignorable (markErrorAsIgnorable 19 ⟨[], []⟩))).1 = false ∧
    (exitAPI 11 (markErrorAsUnignorable (markErrorAsIgnorable 19 ⟨[], []⟩))).2.reports
      = ([] : List Int) ++ [11] :=
  markErrorAsIgnorable_suppresses 19 11 ⟨[], []⟩ (by decide) (by decide) (by decide)

/-- C4: the ignorable-code collection is a stack: suppression consults
only the top entry (a code below the top is still reported), an inner
push/pop pair restores the outer entry exactly, and afterwards the outer
code's ignore scope is in effect again. -/
theorem ignorableCodes_stack_discipline (X Y : Int) (e : ErrorCtx)
    (hX : isError X = true) (hXY : X ≠ Y) :
    markErrorAsUnignorable (markErrorAsIgnorable Y (markErrorAsIgnorable X e))
      = markErrorAsIgnorable X e ∧
    (exitAPI X (markErrorAsIgnorable Y (markErrorAsIgnorable X e))).2.reports
      = e.reports ++ [X] ∧
    (exitAPI X (markErrorAsUnignorable (markErrorAsIgnorable Y (markErrorAsIgnorable X e)))).2.reports
      = e.reports := by
  have hpop : markErrorAsUnignorable (markErrorAsIgnorable Y (markErrorAsIgnorable X e))
      = markErrorAsIgnorable X e := by
    simp [markErrorAsUnignorable, markErrorAsIgnorable]
  refine ⟨hpop, ?_, ?_⟩
  · have hne : ¬ ((markErrorAsIgnorable Y (markErrorAsIgnorable X e)).ignorableCodes.head?
        = some X) := by
      simp [markErrorAsIgnorable]
      omega
    have hYX : Y ≠ X := Ne.symm hXY
    simp [exitAPI, hX, hne, markErrorAsIgnorable, hYX]
  · rw [hpop]
    simp [exitAPI, markErrorAsIgnorable, hX]

theorem ignorableCodes_stack_discipline_witness :
    markErrorAsUnignorable (markErrorAsIgnorable 5 (markErrorAsIgnorable 19 ⟨[], []⟩))
      = markErrorAsIgnorable 19 ⟨[], []⟩ ∧
    (exitAPI 19 (markErrorAsIgnorable 5 (markErrorAsIgnorable 19 ⟨[], []⟩))).2.reports
      = ([] : List Int) ++ [19] ∧
    (exitAPI 19 (markErrorAsUnignorable
        (markErrorAsIgnorable 5 (markErrorAsIgnorable 19 ⟨[], []⟩)))).2.reports
      = ([] : List Int) :=
  ignorableCodes_stack_discipline 19 5 ⟨[], []⟩ (by decide) (by decide)

/-- One commit-notification entry: the caller-chosen name, the numeric
order, the registration sequence number, and an identifier standing for
the callback. -/
structure CommitEntry where
  name : String
  order : Int
  reg : Nat
  cb : Nat
deriving Repr, DecidableEq

/-- The commit channel of `HandleNotification`: the ordered mapping from
name to (order, callback), plus the registration counter. -/
structure CommitRegistry where
  next : Nat
  entries : List CommitEntry
deriving Repr, DecidableEq

/-- An empty commit channel. -/
def emptyCommitRegistry : CommitRegistry := ⟨0, []⟩

/-- Modelled from the spec: insertion into the ordered commit mapping; a
new entry goes after every entry whose order is at most its own, so ties
keep registration order. -/
def insertCommit (x : CommitEntry) : List CommitEntry → List CommitEntry
  | [] => [x]
  | y :: ys => if y.order ≤ x.order then y :: insertCommit x ys else x :: y :: ys

/-- Modelled from the spec: the body of
`AbstractHandle::setNotificationWhenCommitted` is missing from `src/`.
Re-registering a name replaces its callback; the entry is placed by its
numeric order. -/
def setNotificationWhenCommitted (order : Int) (name : String) (cb : Nat)
    (r : CommitRegistry) : CommitRegistry :=
  ⟨r.next + 1,
    insertCommit ⟨name, order, r.next, cb⟩ (r.entries.filter (fun en => en.name != name))⟩

/-- Modelled from the spec: the body of
`AbstractHandle::unsetNotificationWhenCommitted` is missing from `src/`;
it removes the single observer registered under the name. -/
def unsetNotificationWhenCommitted (name : String) (r : CommitRegistry) : CommitRegistry :=
  ⟨r.next, r.entries.filter (fun en => en.name != name)⟩

/-- The sequence of observer names a successful commit fires, in firing
order. -/
def commitDispatch (r : CommitRegistry) : List String :=
  r.entries.map (fun en => en.name)

/-- Firing precedence of commit entries: strictly smaller numeric order,
or equal order and earlier registration. -/
def lexOk (a b : CommitEntry) : Prop :=
  a.order < b.order ∨ (a.order = b.order ∧ a.reg < b.reg)

theorem mem_insertCommit (x a : CommitEntry) (l : List CommitEntry) :
    a ∈ insertCommit x l ↔ a = x ∨ a ∈ l := by
  induction l with
  | nil => simp [insertCommit]
  | cons y ys ih =>
    simp only [insertCommit]
    split_ifs with hy
    · simp only [List.mem_cons, ih]
      tauto
    · simp only [List.mem_cons]

theorem insertCommit_pairwise (x : CommitEntry) (l : List CommitEntry)
    (hl : l.Pairwise lexOk) (hreg : ∀ y ∈ l, y.reg < x.reg) :
    (insertCommit x l).Pairwise lexOk := by
  induction l with
  | nil => simp [insertCommit]
  | cons y ys ih =>
    rcases List.pairwise_cons.1 hl with ⟨hy, hys⟩
    simp only [insertCommit]
    split_ifs with hle
    · refine List.pairwise_cons.2 ⟨?_, ih hys (fun z hz => hreg z (List.mem_cons_of_mem _ hz))⟩
      intro z hz
      rcases (mem_insertCommit x z ys).1 hz with rfl | hz'
      · rcases lt_or_eq_of_le hle with hlt | heq
        · exact Or.inl hlt
        · exact Or.inr ⟨heq, hreg y (List.mem_cons_self _ _)⟩
      · exact hy z hz'
    · push_neg at hle
      refine List.pairwise_cons.2 ⟨?_, hl⟩
      intro z hz
      rcases List.mem_cons.1 hz with rfl | hz'
      · exact Or.inl hle
      · rcases hy z hz' with h1 | ⟨h2, _⟩
        · exact Or.inl (lt_trans hle h1)
        · exact Or.inl (by omega)

/-- The invariant of the commit channel: entries are in firing
precedence and registration numbers are below the counter. -/
def CommitRegistryInv (r : CommitRegistry) : Prop :=
  r.entries.Pairwise lexOk ∧ ∀ y ∈ r.entries, y.reg < r.next

theorem setNotificationWhenCommitted_inv (order : Int) (name : String) (cb : Nat)
    (r : CommitRegistry) (hr : CommitRegistryInv r) :
    CommitRegistryInv (setNotificationWhenCommitted order name cb r) := by
  obtain ⟨hp, hb⟩ := hr
  simp only [CommitRegistryInv, setNotificationWhenCommitted]
  constructor
  · apply insertCommit_pairwise
    · exact hp.filter _
    · intro y hy
      exact hb y (List.mem_of_mem_filter hy)
  · intro y hy
    rcases (mem_insertCommit _ y _).1 hy with rfl | hy'
    · exact Nat.lt_succ_self _
    · exact Nat.lt_succ_of_lt (hb y (List.mem_of_mem_filter hy'))

/-- Apply a sequence of commit registrations, each a triple of order,
name and callback identifier. -/
def applyRegs (regs : List (Int × String × Nat)) (r : CommitRegistry) : CommitRegistry :=
  regs.foldl (fun s x => setNotificationWhenCommitted x.1 x.2.1 x.2.2 s) r

theorem applyRegs_inv (regs : List (Int × String × Nat)) (r : CommitRegistry)
    (hr : CommitRegistryInv r) : CommitRegistryInv (applyRegs regs r) := by
  induction regs generalizing r with
  | nil => exact hr
  | cons x xs ih => exact ih _ (setNotificationWhenCommitted_inv _ _ _ _ hr)

/-- C5: after any sequence of registrations the commit observers stand
in firing order: ascending numeric order value, ties broken by earlier
registration; in particular registering name "B" with order 0 and then
name "A" with order 1 fires B before A. -/
theorem committed_dispatch_order (regs : List (Int × String × Nat)) :
    (applyRegs regs emptyCommitRegistry).entries.Pairwise lexOk ∧
    (∀ y ∈ (applyRegs regs emptyCommitRegistry).entries,
      y.reg < (applyRegs regs emptyCommitRegistry).next) ∧
    commitDispatch (setNotificationWhenCommitted 1 "A" 11
        (setNotificationWhenCommitted 0 "B" 10 emptyCommitRegistry)) = ["B", "A"] := by
  have hinv := applyRegs_inv regs emptyCommitRegistry
    ⟨List.Pairwise.nil, by simp [emptyCommitRegistry]⟩
  exact ⟨hinv.1, hinv.2, by decide⟩

theorem committed_dispatch_order_witness :
    (applyRegs [(1, "A", 11), (0, "B", 10)] emptyCommitRegistry).entries.Pairwise lexOk ∧
    (∀ y ∈ (applyRegs [(1, "A", 11), (0, "B", 10)] emptyCommitRegistry).entries,
      y.reg < (applyRegs [(1, "A", 11), (0, "B", 10)] emptyCommitRegistry).next) ∧
    commitDispatch (setNotificationWhenCommitted 1 "A" 11
        (setNotificationWhenCommitted 0 "B" 10 emptyCommitRegistry)) = ["B", "A"] :=
  committed_dispatch_order [(1, "A", 11), (0, "B", 10)]

/-- Modelled from the spec: updating one name-keyed channel of
`HandleNotification` (whose implementation is missing from `src/`); a
`some` callback registers the name or replaces its callback, `none`
unregisters the name. -/
def setNamed (name : String) (cb : Option Nat) (l : List (String × Nat)) :
    List (String × Nat) :=
  match cb with
  | some c => (l.filter (fun en => en.1 != name)) ++ [(name, c)]
  | none => l.filter (fun en => en.1 != name)

/-- The callback currently registered in a name-keyed channel under a
name, if any. -/
def lookupNamed (l : List (String × Nat)) (name : String) : Option Nat :=
  (l.find? (fun en => en.1 == name)).map (fun en => en.2)

/-- The notification registries of a handle, following the setter
signatures of the header: five channels keyed by a caller-chosen name,
the busy channel holding one unnamed callback
(`setNotificationWhenBusy` takes no name parameter), and the ordered
commit channel. -/
structure HandleNotificationState where
  performanceTraced : List (String × Nat)
  sqlTraced : List (String × Nat)
  willStep : List (String × Nat)
  didStep : List (String × Nat)
  checkpointed : List (String × Nat)
  busy : Option Nat
  committed : CommitRegistry
deriving Repr, DecidableEq

/-- A handle's notification state with nothing registered. -/
def emptyNotificationState : HandleNotificationState :=
  ⟨[], [], [], [], [], none, emptyCommitRegistry⟩

/-- Modelled from the spec: the body of
`AbstractHandle::setNotificationWhenPerformanceTraced` is missing from
`src/`. -/
def setNotificationWhenPerformanceTraced (name : String) (cb : Option Nat)
    (h : HandleNotificationState) : HandleNotificationState :=
  { h with performanceTraced := setNamed name cb h.performanceTraced }

/-- Modelled from the spec: the body of
`AbstractHandle::setNotificationWhenSQLTraced` is missing from `src/`. -/
def setNotificationWhenSQLTraced (name : String) (cb : Option Nat)
    (h : HandleNotificationState) : HandleNotificationState :=
  { h with sqlTraced := setNamed name cb h.sqlTraced }

/-- Modelled from the spec: the body of
`AbstractHandle::setNotificationWhenStatementWillStep` is missing from
`src/`. -/
def setNotificationWhenStatementWillStep (name : String) (cb : Option Nat)
    (h : HandleNotificationState) : HandleNotificationState :=
  { h with willStep := setNamed name cb h.willStep }

/-- Modelled from the spec: the body of
`AbstractHandle::setNotificationWhenStatementDidStep` is missing from
`src/`. -/
def setNotificationWhenStatementDidStep (name : String) (cb : Option Nat)
    (h : HandleNotificationState) : HandleNotificationState :=
  { h with didStep := setNamed name cb h.didStep }

/-- Modelled from the spec: the body of
`AbstractHandle::setNotificationWhenCheckpointed` is missing from
`src/`. -/
def setNotificationWhenCheckpointed (name : String) (cb : Option Nat)
    (h : HandleNotificationState) : HandleNotificationState :=
  { h with checkpointed := setNamed name cb h.checkpointed }

/-- From the header: `setNotificationWhenBusy` takes only the callback,
no name; the busy channel holds a single observer and setting it
replaces any previous one. -/
def setNotificationWhenBusy (cb : Nat) (h : HandleNotificationState) :
    HandleNotificationState :=
  { h with busy := some cb }

theorem find?_append_of_none (p : (String × Nat) → Bool) (l₁ l₂ : List (String × Nat))
    (h : ∀ e ∈ l₁, p e = false) : (l₁ ++ l₂).find? p = l₂.find? p := by
  induction l₁ with
  | nil => rfl
  | cons e es ih =>
    rw [List.cons_append, List.find?_cons_of_neg _ (by simp [h e (List.mem_cons_self _ _)])]
    exact ih (fun x hx => h x (List.mem_cons_of_mem _ hx))

theorem find?_name_filter (n n' : String) (hne : n' ≠ n) (l : List (String × Nat)) :
    (l.filter (fun en => en.1 != n)).find? (fun en => en.1 == n')
      = l.find? (fun en => en.1 == n') := by
  induction l with
  | nil => rfl
  | cons e es ih =>
    by_cases he : e.1 = n
    · have hp : (e.1 == n') = false := by
        simp [he]
        exact fun hc => hne hc.symm
      rw [List.filter_cons_of_neg (by simp [he]), ih,
        List.find?_cons_of_neg _ (by simp [hp])]
    · rw [List.filter_cons_of_pos (by simp [he])]
      by_cases hp : e.1 = n'
      · rw [List.find?_cons_of_pos _ (by simp [hp]), List.find?_cons_of_pos _ (by simp [hp])]
      · rw [List.find?_cons_of_neg _ (by simp [hp]), List.find?_cons_of_neg _ (by simp [hp]),
          ih]

theorem lookupNamed_setNamed_self (n : String) (c : Nat) (l : List (String × Nat)) :
    lookupNamed (setNamed n (some c) l) n = some c := by
  simp only [setNamed, lookupNamed]
  rw [find?_append_of_none _ _ _ (fun e he => ?_)]
  · simp [List.find?]
  · have hmem := List.of_mem_filter he
    simpa using hmem

theorem lookupNamed_setNamed_none (n : String) (l : List (String × Nat)) :
    lookupNamed (setNamed n none l) n = none := by
  simp only [setNamed, lookupNamed]
  rw [List.find?_eq_none.2 (fun e he => ?_), Option.map_none']
  have hmem := List.of_mem_filter he
  simpa using hmem

theorem lookupNamed_setNamed_other (n n' : String) (cb : Option Nat)
    (l : List (String × Nat)) (hne : n' ≠ n) :
    lookupNamed (setNamed n cb l) n' = lookupNamed l n' := by
  cases cb with
  | none =>
    simp only [setNamed, lookupNamed]
    rw [find?_name_filter n n' hne]
  | some c =>
    simp only [setNamed, lookupNamed]
    rw [List.find?_append, find?_name_filter n n' hne]
    have hnn : (n == n') = false := beq_eq_false_iff_ne.2 (Ne.symm hne)
    have hlast : List.find? (fun en => en.1 == n') [(n, c)] = none := by
      simp [List.find?, hnn]
    rw [hlast, Option.or_none]

/-- C6 counterexample: the busy channel cannot host two observers at
once — `setNotificationWhenBusy` takes no name in the header, and a
second busy registration replaces the first rather than leaving it
registered. -/
theorem busy_channel_single_slot :
    (setNotificationWhenBusy 2 (setNotificationWhenBusy 1 emptyNotificationState)).busy
      = some 2 ∧
    (setNotificationWhenBusy 2 (setNotificationWhenBusy 1 emptyNotificationState)).busy
      ≠ some 1 := by
  constructor
  · rfl
  · decide

/-- C6 (amended): the five channels performance-trace, SQL-trace,
statement-will-step, statement-did-step and checkpoint are each keyed by
a caller-chosen name — registering a name makes its callback current,
unregistering or re-registering one name leaves every other name's
callback untouched — while the busy channel holds a single unnamed
observer that each registration replaces. -/
theorem named_channels_keyed_by_name (h : HandleNotificationState) (n n' : String)
    (c : Nat) (cb : Option Nat) (l : List (String × Nat)) (hne : n' ≠ n) :
    (setNotificationWhenPerformanceTraced n cb h).performanceTraced
      = setNamed n cb h.performanceTraced ∧
    (setNotificationWhenSQLTraced n cb h).sqlTraced = setNamed n cb h.sqlTraced ∧
    (setNotificationWhenStatementWillStep n cb h).willStep = setNamed n cb h.willStep ∧
    (setNotificationWhenStatementDidStep n cb h).didStep = setNamed n cb h.didStep ∧
    (setNotificationWhenCheckpointed n cb h).checkpointed = setNamed n cb h.checkpointed ∧
    lookupNamed (setNamed n (some c) l) n = some c ∧
    lookupNamed (setNamed n none l) n = none ∧
    lookupNamed (setNamed n cb l) n' = lookupNamed l n' ∧
    (setNotificationWhenBusy c h).busy = some c :=
  ⟨rfl, rfl, rfl, rfl, rfl, lookupNamed_setNamed_self n c l, lookupNamed_setNamed_none n l,
    lookupNamed_setNamed_other n n' cb l hne, rfl⟩

theorem named_channels_keyed_by_name_witness :
    (setNotificationWhenPerformanceTraced "a" (some 3) emptyNotificationState).performanceTraced
      = setNamed "a" (some 3) emptyNotificationState.performanceTraced ∧
    (setNotificationWhenSQLTraced "a" (some 3) emptyNotificationState).sqlTraced
      = setNamed "a" (some 3) emptyNotificationState.sqlTraced ∧
    (setNotificationWhenStatementWillStep "a" (some 3) emptyNotificationState).willStep
      = setNamed "a" (some 3) emptyNotificationState.willStep ∧
    (setNotificationWhenStatementDidStep "a" (some 3) emptyNotificationState).didStep
      = setNamed "a" (some 3) emptyNotificationState.didStep ∧
    (setNotificationWhenCheckpointed "a" (some 3) emptyNotificationState).checkpointed
      = setNamed "a" (some 3) emptyNotificationState.checkpointed ∧
    lookupNamed (setNamed "a" (some 7) [("b", 5)]) "a" = some 7 ∧
    lookupNamed (setNamed "a" none [("b", 5)]) "a" = none ∧
    lookupNamed (setNamed "a" (some 3) [("b", 5)]) "b" = lookupNamed [("b", 5)] "b" ∧
    (setNotificationWhenBusy 7 emptyNotificationState).busy = some 7 :=
  named_channels_keyed_by_name emptyNotificationState "a" "b" 7 (some 3) [("b", 5)]
    (by decide)

/-- A pooled prepared statement: its identity (the prepared form) plus
the caller-visible binding and cursor state. -/
structure HandleStatement where
  id : Nat
  bindings : List Int
  cursor : Nat
deriving Repr, DecidableEq

/-- Resetting a statement clears bound parameters and cursor state but
keeps the prepared form. -/
def resetStatement (st : HandleStatement) : HandleStatement := ⟨st.id, [], 0⟩

/-- The statement pool of one handle (`m_handleStatements`): the free
list, the identifiers currently checked out to callers, and the
allocation counter for fresh statements. -/
structure StatementPool where
  free : List HandleStatement
  out : List Nat
  nextId : Nat
deriving Repr, DecidableEq

/-- The pool of a fresh handle. -/
def emptyPool : StatementPool := ⟨[], [], 0⟩

/-- Modelled from the spec: the body of `AbstractHandle::getStatement` is
missing from `src/`; it returns an available reset statement from the
pool, or allocates a new one if none is free. -/
def getStatement (p : StatementPool) : HandleStatement × StatementPool :=
  match p.free with
  | st :: rest => (st, ⟨rest, st.id :: p.out, p.nextId⟩)
  | [] => (⟨p.nextId, [], 0⟩, ⟨[], p.nextId :: p.out, p.nextId + 1⟩)

/-- Modelled from the spec: the body of `AbstractHandle::returnStatement`
is missing from `src/`; it resets the statement (clearing bound
parameters and cursor state) and returns it to the free list rather
than destroying it. -/
def returnStatement (st : HandleStatement) (p : StatementPool) : StatementPool :=
  ⟨resetStatement st :: p.free, p.out.erase st.id, p.nextId⟩

/-- One pool interaction: a caller acquires a statement, or returns a
statement it holds (with whatever bindings and cursor state its use left
behind); returning a statement that is not checked out is a no-op. -/
inductive PoolOp where
  | get
  | ret (st : HandleStatement)
deriving Repr, DecidableEq

/-- The pool transition of one interaction. -/
def poolStep (op : PoolOp) (p : StatementPool) : StatementPool :=
  match op with
  | .get => (getStatement p).2
  | .ret st => if st.id ∈ p.out then returnStatement st p else p

/-- Run a trace of pool interactions. -/
def runPool (ops : List PoolOp) (p : StatementPool) : StatementPool :=
  ops.foldl (fun s op => poolStep op s) p

/-- The pool invariant: no statement identity appears twice among the
checked-out statements and the free list, identities stay below the
allocation counter, and every free statement is reset. -/
def PoolInv (p : StatementPool) : Prop :=
  (p.out ++ p.free.map (fun st => st.id)).Nodup ∧
  (∀ i ∈ p.out, i < p.nextId) ∧
  (∀ st ∈ p.free, st.id < p.nextId ∧ st.bindings = [] ∧ st.cursor = 0)

theorem poolStep_inv (op : PoolOp) (p : StatementPool) (hp : PoolInv p) :
    PoolInv (poolStep op p) := by
  obtain ⟨hnd, hout, hfree⟩ := hp
  cases op with
  | get =>
    rcases hf : p.free with _ | ⟨st, rest⟩
    · rw [hf] at hnd hfree
      simp only [List.map_nil, List.append_nil] at hnd
      refine ⟨?_, ?_, ?_⟩ <;> simp only [poolStep, getStatement, hf]
      · simp only [List.map_nil, List.append_nil]
        exact List.nodup_cons.2 ⟨fun hc => absurd (hout _ hc) (by omega), hnd⟩
      · intro i hi
        rcases List.mem_cons.1 hi with rfl | hi'
        · omega
        · exact Nat.lt_succ_of_lt (hout i hi')
      · intro s hs
        simp at hs
    · rw [hf] at hnd hfree
      refine ⟨?_, ?_, ?_⟩ <;> simp only [poolStep, getStatement, hf]
      · simp only [List.map_cons, List.cons_append] at hnd ⊢
        exact List.perm_middle.nodup hnd
      · intro i hi
        rcases List.mem_cons.1 hi with rfl | hi'
        · exact (hfree st (List.mem_cons_self _ _)).1
        · exact hout i hi'
      · intro s hs
        exact hfree s (List.mem_cons_of_mem _ hs)
  | ret st =>
    by_cases hmem : st.id ∈ p.out
    · have hndout : p.out.Nodup := (List.nodup_append.1 hnd).1
      have hndfree : (p.free.map (fun s => s.id)).Nodup := (List.nodup_append.1 hnd).2.1
      have hdisj : p.out.Disjoint (p.free.map (fun s => s.id)) :=
        (List.nodup_append.1 hnd).2.2
      refine ⟨?_, ?_, ?_⟩ <;> simp only [poolStep, hmem, if_pos, returnStatement]
      · simp only [List.map_cons, resetStatement]
        refine List.perm_middle.symm.nodup (List.nodup_cons.2 ⟨?_, ?_⟩)
        · intro hc
          rcases List.mem_append.1 hc with hc1 | hc2
          · exact absurd ((hndout.mem_erase_iff).1 hc1).1 (by simp)
          · exact hdisj hmem hc2
        · refine List.nodup_append.2 ⟨hndout.erase _, hndfree, ?_⟩
          intro x hx1 hx2
          exact hdisj (List.mem_of_mem_erase hx1) hx2
      · intro i hi
        exact hout i (List.mem_of_mem_erase hi)
      · intro s hs
        rcases List.mem_cons.1 hs with rfl | hs'
        · exact ⟨hout st.id hmem, rfl, rfl⟩
        · exact hfree s hs'
    · simpa only [poolStep, hmem, if_neg, not_false_iff] using ⟨hnd, hout, hfree⟩

theorem runPool_inv (ops : List PoolOp) (p : StatementPool) (hp : PoolInv p) :
    PoolInv (runPool ops p) := by
  induction ops generalizing p with
  | nil => exact hp
  | cons op rest ih => exact ih _ (poolStep_inv op p hp)

/-- C9: along every trace of acquisitions and returns from a fresh pool,
no two live callers hold the same statement; `getStatement` hands out
the available reset statement at the head of the free list, or allocates
a fresh one when none is free; and `returnStatement` puts the reset
statement — same identity, cleared bindings and cursor — back on the
free list instead of destroying it. -/
theorem statementPool_exclusive (trace : List PoolOp) (p q : StatementPool)
    (st : HandleStatement) (rest : List HandleStatement) :
    PoolInv (runPool trace emptyPool) ∧
    (runPool trace emptyPool).out.Nodup ∧
    (p.free = st :: rest → getStatement p = (st, ⟨rest, st.id :: p.out, p.nextId⟩)) ∧
    (p.free = [] →
      getStatement p = (⟨p.nextId, [], 0⟩, ⟨[], p.nextId :: p.out, p.nextId + 1⟩)) ∧
    (returnStatement st q).free = resetStatement st :: q.free ∧
    resetStatement st = ⟨st.id, [], 0⟩ := by
  have hinv : PoolInv (runPool trace emptyPool) :=
    runPool_inv trace emptyPool ⟨by simp [emptyPool], by simp [emptyPool], by simp [emptyPool]⟩
  refine ⟨hinv, (List.nodup_append.1 hinv.1).1, ?_, ?_, rfl, rfl⟩
  · intro hfree
    simp [getStatement, hfree]
  · intro hfree
    simp [getStatement, hfree]

theorem statementPool_exclusive_witness :
    PoolInv (runPool [PoolOp.get, PoolOp.get, PoolOp.ret ⟨0, [4], 2⟩, PoolOp.get] emptyPool) ∧
    (runPool [PoolOp.get, PoolOp.get, PoolOp.ret ⟨0, [4], 2⟩, PoolOp.get] emptyPool).out.Nodup ∧
    ((⟨[⟨0, [], 0⟩], [1], 2⟩ : StatementPool).free = ⟨0, [], 0⟩ :: [] →
      getStatement ⟨[⟨0, [], 0⟩], [1], 2⟩ = (⟨0, [], 0⟩, ⟨[], 0 :: [1], 2⟩)) ∧
    ((⟨[⟨0, [], 0⟩], [1], 2⟩ : StatementPool).free = [] →
      getStatement ⟨[⟨0, [], 0⟩], [1], 2⟩ = (⟨2, [], 0⟩, ⟨[], 2 :: [1], 2 + 1⟩)) ∧
    (returnStatement ⟨0, [], 0⟩ (⟨[], [0], 1⟩ : StatementPool)).free
      = resetStatement ⟨0, [], 0⟩ :: (⟨[], [0], 1⟩ : StatementPool).free ∧
    resetStatement ⟨0, [], 0⟩ = ⟨0, [], 0⟩ :=
  statementPool_exclusive [PoolOp.get, PoolOp.get, PoolOp.ret ⟨0, [4], 2⟩, PoolOp.get]
    ⟨[⟨0, [], 0⟩], [1], 2⟩ ⟨[], [0], 1⟩ ⟨0, [], 0⟩ []

/-- The open/closed state of a handle with its statement pool. -/
structure HandleState where
  opened : Bool
  pool : StatementPool
deriving Repr, DecidableEq

/-- The engine-facing events a `close` call performs, in order. -/
inductive CloseEvent where
  | finalize (id : Nat)
  | release
deriving Repr, DecidableEq

/-- Modelled from the spec: the body of
`AbstractHandle::finalizeStatements` is missing from `src/`; it
finalizes every pooled statement — checked out or free — and empties
the pool. -/
def finalizeStatements (p : StatementPool) : List CloseEvent × StatementPool :=
  ((p.out ++ p.free.map (fun st => st.id)).map CloseEvent.finalize, ⟨[], [], p.nextId⟩)

/-- Modelled from the spec: the body of `AbstractHandle::close` is
missing from `src/`; on an open handle it finalizes every outstanding
pooled statement and then releases the engine connection; on an
already-closed handle it is a no-op. -/
def close (h : HandleState) : List CloseEvent × HandleState :=
  if h.opened then
    ((finalizeStatements h.pool).1 ++ [CloseEvent.release],
      ⟨false, (finalizeStatements h.pool).2⟩)
  else ([], h)

theorem close_of_opened (h : HandleState) (ho : h.opened = true) :
    close h = ((h.pool.out ++ h.pool.free.map (fun st => st.id)).map CloseEvent.finalize
        ++ [CloseEvent.release], ⟨false, ⟨[], [], h.pool.nextId⟩⟩) := by
  simp [close, ho, finalizeStatements]

/-- C8: `close` is idempotent — a second close performs no engine event
(no error, no double finalization) and leaves the state fixed; a close
of an open handle finalizes every outstanding pooled statement, free or
checked out, all before the single release of the connection, and leaves
the pool empty. -/
theorem close_idempotent (h : HandleState) (i : Nat) :
    close ((close h).2) = ([], (close h).2) ∧
    (h.opened = false → close h = ([], h)) ∧
    (h.opened = true → i ∈ h.pool.out ++ h.pool.free.map (fun st => st.id) →
      CloseEvent.finalize i ∈ (close h).1) ∧
    (h.opened = true →
      (close h).1
        = (h.pool.out ++ h.pool.free.map (fun st => st.id)).map CloseEvent.finalize
            ++ [CloseEvent.release]) ∧
    (h.opened = true → (close h).2.pool.free = [] ∧ (close h).2.pool.out = []) ∧
    (close h).2.opened = false ∨ h.opened = false := by
  left
  refine ⟨?_, ?_, ?_, ?_, ?_, ?_⟩
  · rcases ho : h.opened with _ | _ <;> simp [close, ho]
  · intro ho
    simp [close, ho]
  · intro ho hi
    rw [close_of_opened h ho]
    exact List.mem_append_left _ (List.mem_map_of_mem _ hi)
  · intro ho
    rw [close_of_opened h ho]
  · intro ho
    rw [close_of_opened h ho]
    exact ⟨rfl, rfl⟩
  · rcases ho : h.opened with _ | _ <;> simp [close, ho]

theorem close_idempotent_witness :
    close ((close ⟨true, ⟨[⟨1, [], 0⟩], [0], 2⟩⟩).2) = ([], (close ⟨true, ⟨[⟨1, [], 0⟩], [0], 2⟩⟩).2) ∧
    ((true : Bool) = false → close ⟨true, ⟨[⟨1, [], 0⟩], [0], 2⟩⟩ = ([], ⟨true, ⟨[⟨1, [], 0⟩], [0], 2⟩⟩)) ∧
    ((true : Bool) = true →
      0 ∈ (⟨true, ⟨[⟨1, [], 0⟩], [0], 2⟩⟩ : HandleState).pool.out
            ++ (⟨true, ⟨[⟨1, [], 0⟩], [0], 2⟩⟩ : HandleState).pool.free.map (fun st => st.id) →
      CloseEvent.finalize 0 ∈ (close ⟨true, ⟨[⟨1, [], 0⟩], [0], 2⟩⟩).1) ∧
    ((true : Bool) = true →
      (close ⟨true, ⟨[⟨1, [], 0⟩], [0], 2⟩⟩).1
        = ((⟨true, ⟨[⟨1, [], 0⟩], [0], 2⟩⟩ : HandleState).pool.out
            ++ (⟨true, ⟨[⟨1, [], 0⟩], [0], 2⟩⟩ : HandleState).pool.free.map (fun st => st.id)).map
              CloseEvent.finalize ++ [CloseEvent.release]) ∧
    ((true : Bool) = true →
      (close ⟨true, ⟨[⟨1, [], 0⟩], [0], 2⟩⟩).2.pool.free = [] ∧
      (close ⟨true, ⟨[⟨1, [], 0⟩], [0], 2⟩⟩).2.pool.out = []) ∧
    (close ⟨true, ⟨[⟨1, [], 0⟩], [0], 2⟩⟩).2.opened = false ∨ (true : Bool) = false :=
  close_idempotent ⟨true, ⟨[⟨1, [], 0⟩], [0], 2⟩⟩ 0

/-- Column metadata of one column of a table, as `getTableMeta` reports
it. -/
structure ColumnMeta where
  name : String
  declaredType : String
deriving Repr, DecidableEq

/-- Modelled from the spec: the body of `AbstractHandle::tableExists` is
missing from `src/`. `engineOk` is whether the read-only introspection
statement executed; an engine-level failure yields success `false` with
the default value, while a well-formed lookup yields success `true`
carrying whether the table is in the catalog. -/
def tableExists (engineOk : Bool) (tables : List String) (table : String) : Bool × Bool :=
  if engineOk then (true, tables.contains table) else (false, false)

/-- Modelled from the spec: the body of
`AbstractHandle::ft3TokenizerExists` is missing from `src/`; analogous
lookup among the registered fts3 tokenizers. -/
def ft3TokenizerExists (engineOk : Bool) (tokenizers : List String) (tokenizer : String) :
    Bool × Bool :=
  if engineOk then (true, tokenizers.contains tokenizer) else (false, false)

/-- Modelled from the spec: the body of `AbstractHandle::getColumns` is
missing from `src/`; the column names of the table in the catalog, empty
when the table is absent — success `true` either way, success `false`
only on engine failure. -/
def getColumns (engineOk : Bool) (schema : List (String × List String)) (table : String) :
    Bool × List String :=
  if engineOk then
    (true, match schema.find? (fun en => en.1 == table) with
           | some en => en.2
           | none => [])
  else (false, [])

/-- Modelled from the spec: the body of `AbstractHandle::getTableMeta` is
missing from `src/`; the column metadata of the table, empty when the
table is absent. -/
def getTableMeta (engineOk : Bool) (metas : List (String × List ColumnMeta)) (table : String) :
    Bool × List ColumnMeta :=
  if engineOk then
    (true, match metas.find? (fun en => en.1 == table) with
           | some en => en.2
           | none => [])
  else (false, [])

/-- C7: every meta query returns success `false` exactly on an
engine-level failure, and a successful lookup of an absent name is the
well-formed pair of success `true` with the empty/default value — in
particular `tableExists` on a nonexistent table of a valid open handle
is `(true, false)`, never `(false, _)`. -/
theorem metaQueries_success_vs_notfound (engineOk : Bool) (tables tokenizers : List String)
    (schema : List (String × List String)) (metas : List (String × List ColumnMeta))
    (table tokenizer : String) :
    (tableExists engineOk tables table).1 = engineOk ∧
    (ft3TokenizerExists engineOk tokenizers tokenizer).1 = engineOk ∧
    (getColumns engineOk schema table).1 = engineOk ∧
    (getTableMeta engineOk metas table).1 = engineOk ∧
    tableExists true tables table = (true, tables.contains table) ∧
    (tables.contains table = false → tableExists true tables table = (true, false)) ∧
    tableExists true ["existing"] "nonexistent" = (true, false) := by
  rcases engineOk <;>
    simp [tableExists, ft3TokenizerExists, getColumns, getTableMeta]

theorem metaQueries_success_vs_notfound_witness :
    (tableExists true ["existing"] "nonexistent").1 = true ∧
    (ft3TokenizerExists true ["fts3tok"] "other").1 = true ∧
    (getColumns true [("existing", ["c1"])] "nonexistent").1 = true ∧
    (getTableMeta true [("existing", [⟨"c1", "INTEGER"⟩])] "nonexistent").1 = true ∧
    tableExists true ["existing"] "nonexistent"
      = (true, (["existing"] : List String).contains "nonexistent") ∧
    ((["existing"] : List String).contains "nonexistent" = false →
      tableExists true ["existing"] "nonexistent" = (true, false)) ∧
    tableExists true ["existing"] "nonexistent" = (true, false) :=
  metaQueries_success_vs_notfound true ["existing"] ["fts3tok"] [("existing", ["c1"])]
    [("existing", [⟨"c1", "INTEGER"⟩])] "nonexistent" "other"

end WCDB
